import Mathlib

/-!
Verification development for the creative-video-library repository.

The relevant program logic is shallowly embedded below, translated from the
TypeScript sources:
  * `src/app/page.tsx`          — listing page: filter parameters, facet option
                                  catalog, query construction (join strictness,
                                  predicates, ordering, cap).
  * `src/app/admin/page.tsx`    — `extractYouTubeId` and the bulk write
                                  coordinator `saveAllAction` together with its
                                  helper `upsertByVideoId`.
  * `src/app/videos/[id]/page.tsx` — record assembly for the detail view:
                                  `normalizeText`, `normalizeBullets`,
                                  `pickFirst`/`pickFirstArray`, note sorting.

JavaScript strings are modelled as Lean `String`s, with the string operations
used by the sources (`trim`, `split`) reimplemented over `String.data` so that
every definition evaluates inside the kernel.  JavaScript `null`/`undefined`
becomes `Option`.  The storage backend (Supabase/PostgREST) is an external
collaborator and is modelled as explicit table state with upsert-on-conflict
semantics; write failures are injected through an explicit oracle, mirroring
the fact that any dependent write may be rejected by the backend.
-/

namespace CVL

/-! ## JavaScript string primitives -/

/-- Whitespace characters removed by JavaScript's `String.prototype.trim`
(restricted to the ASCII whitespace class, which covers every string the
embedded code manipulates). -/
def isJsWhitespace (c : Char) : Bool :=
  c = ' ' || c = '\t' || c = '\n' || c = '\r' || c = '\x0b' || c = '\x0c'

/-- JavaScript `s.trim()`: drop leading and trailing whitespace. -/
def jsTrim (s : String) : String :=
  ⟨((s.data.dropWhile isJsWhitespace).reverse.dropWhile isJsWhitespace).reverse⟩

/-- Split a character list at every occurrence of `sep`, JavaScript
`String.prototype.split` semantics: `"".split(sep) = [""]`, separators at the
ends produce empty fragments. -/
def splitChars (sep : Char) : List Char → List (List Char)
  | [] => [[]]
  | c :: cs =>
    let r := splitChars sep cs
    if c = sep then [] :: r
    else
      match r with
      | [] => [[c]]
      | g :: gs => (c :: g) :: gs

/-- JavaScript `s.split("\n")`. -/
def splitNewlines (s : String) : List String :=
  (splitChars '\n' s.data).map String.mk

/-- Lower-case an ASCII character (JavaScript URL parsing lower-cases the
hostname). -/
def lowerAscii (c : Char) : Char :=
  if 'A' ≤ c && c ≤ 'Z' then Char.ofNat (c.toNat + 32) else c

/-! ## Listing page (`src/app/page.tsx`) -/

/-- The reserved filter value denoting "this facet is actually null". -/
def NULL_SENTINEL : String := "__NULL__"

/-- A raw search-parameter value: Next.js delivers `string | string[]`,
and a key may be absent (`undefined`, modelled by `Option.none` at the call
site). -/
inductive SPVal where
  | str (s : String)
  | arr (l : List String)
deriving DecidableEq, Repr

/-- `getParam` from `src/app/page.tsx`: an absent or falsy (empty-string)
value yields `undefined`; an array contributes its first element
(JavaScript `String(undefined) = "undefined"` for an empty array); the result
is trimmed and empty-after-trim yields `undefined`. -/
def getParam : Option SPVal → Option String
  | none => none
  | some (.str s) =>
    if s = "" then none
    else
      let t := jsTrim s
      if t = "" then none else some t
  | some (.arr l) =>
    let s := match l.head? with
      | some x => x
      | none => "undefined"
    let t := jsTrim s
    if t = "" then none else some t

/-- The three optional facet selections extracted from the request. -/
structure Filters where
  pvf : Option String
  vmc : Option String
  tone : Option String
deriving DecidableEq, Repr

/-- `const hasFilter = !!(pvf || vmc || tone)`. -/
def hasFilterB (f : Filters) : Bool :=
  f.pvf.isSome || f.vmc.isSome || f.tone.isSome

/-- Join strictness chosen by the listing page: the `!inner` (required) form
of the `video_structure_core` embed is used exactly when `hasFilter`. -/
def structureSelectInner (f : Filters) : Bool :=
  hasFilterB f

/-- One `video_structure_core` row (the facet triple). -/
structure CoreRow where
  product_value_focus : Option String
  visual_main_character : Option String
  emotional_tone : Option String
deriving DecidableEq, Repr

/-- One `videos` row together with its (at most one, by the uniqueness
invariant) embedded `video_structure_core` row. -/
structure ListedVideo where
  id : Nat
  title : Option String
  created_at : Nat
  core : Option CoreRow
deriving DecidableEq, Repr

/-- One facet predicate: `undefined` selection imposes nothing, the
null-sentinel demands an SQL `is null`, any other value demands equality. -/
def facetPred (sel : Option String) (col : Option String) : Bool :=
  match sel with
  | none => true
  | some s => if s = NULL_SENTINEL then col.isNone else col = some s

/-- Whether a video row survives the constructed query's filters.  When any
filter is active the `!inner` join requires an existing facet row matching
every active predicate; with no active filter the optional join keeps every
video. -/
def rowMatches (f : Filters) (v : ListedVideo) : Bool :=
  if hasFilterB f then
    match v.core with
    | none => false
    | some c =>
      facetPred f.pvf c.product_value_focus &&
      facetPred f.vmc c.visual_main_character &&
      facetPred f.tone c.emotional_tone
  else true

/-- The filtered rows, before ordering and the row cap. -/
def matchingVideos (f : Filters) (vids : List ListedVideo) : List ListedVideo :=
  vids.filter (rowMatches f)

/-- Stable insertion: the incoming element `x` goes after every existing
element `b` with `keep b x` (for a sort, `keep b x` means "`b` may stay
before `x`", which holds on ties, giving the stability of a stable sort). -/
def insertStable {α : Type} (keep : α → α → Bool) (x : α) : List α → List α
  | [] => [x]
  | b :: bs => if keep b x then b :: insertStable keep x bs else x :: b :: bs

/-- Stable insertion sort: elements are inserted left to right, so ties keep
their original relative order. -/
def stableSort {α : Type} (keep : α → α → Bool) (l : List α) : List α :=
  l.foldl (fun acc x => insertStable keep x acc) []

/-- Sort by `created_at` descending
(`order("created_at", { ascending: false })`). -/
def sortDesc (vids : List ListedVideo) : List ListedVideo :=
  stableSort (fun b x => x.created_at ≤ b.created_at) vids

/-- The full listing query: filter, order by creation time descending,
cap at 50 rows (`limit(50)`). -/
def listedVideos (f : Filters) (vids : List ListedVideo) : List ListedVideo :=
  (sortDesc (matchingVideos f vids)).take 50

/-- The filters as computed by `Home` from the raw search params
(`sp` maps a key to its raw value). -/
def homeFilters (sp : String → Option SPVal) : Filters :=
  ⟨getParam (sp "pvf"), getParam (sp "vmc"), getParam (sp "tone")⟩

/-! ## Facet option catalog (`uniqNonEmpty` / `hasNull` in `src/app/page.tsx`) -/

/-- First-occurrence deduplication with the set of already-seen values,
mirroring how a JavaScript `Set` is populated. -/
def uniqFirstAux (seen : List String) : List String → List String
  | [] => []
  | x :: xs =>
    if x ∈ seen then uniqFirstAux seen xs
    else x :: uniqFirstAux (x :: seen) xs

/-- First-occurrence deduplication, the order produced by
`Array.from(new Set(...))`. -/
def uniqFirst (l : List String) : List String :=
  uniqFirstAux [] l

/-- `uniqNonEmpty`: keep the truthy values whose trimmed form is non-empty
(the values themselves are kept untrimmed), then deduplicate. -/
def uniqNonEmpty (values : List (Option String)) : List String :=
  uniqFirst (values.filterMap fun v =>
    match v with
    | none => none
    | some s => if s ≠ "" ∧ jsTrim s ≠ "" then some s else none)

/-- `hasNull`: does the sample contain an actual null (`v === null`)? -/
def hasNullF (values : List (Option String)) : Bool :=
  values.any (fun v => v = none)

/-! ## Identifier extraction (`extractYouTubeId` in `src/app/admin/page.tsx`)

The WHATWG `URL` constructor is an external platform collaborator; it is
modelled here for the absolute `scheme://authority/path?query` shapes the
extractor receives: the scheme is validated, the hostname is lower-cased and
stripped of userinfo and port, and the query string is read without
percent-decoding (no identifier can contain a percent sign or plus, so the
decoding step cannot affect the extractor's outcome on inputs this model
accepts). Inputs without a `scheme://` prefix are rejected, as the real
constructor rejects scheme-less input. -/

/-- Character class of a canonical video id: `[a-zA-Z0-9_-]`. -/
def isIdChar (c : Char) : Bool :=
  ('a' ≤ c && c ≤ 'z') || ('A' ≤ c && c ≤ 'Z') || ('0' ≤ c && c ≤ '9') ||
    c = '_' || c = '-'

/-- The regular expression `/^[a-zA-Z0-9_-]{11}$/`. -/
def isValidId (s : String) : Bool :=
  s.data.length = 11 && s.data.all isIdChar

/-- First character of a URL scheme: an ASCII letter. -/
def isSchemeStart (c : Char) : Bool :=
  ('a' ≤ c && c ≤ 'z') || ('A' ≤ c && c ≤ 'Z')

/-- Subsequent characters of a URL scheme. -/
def isSchemeChar (c : Char) : Bool :=
  isSchemeStart c || ('0' ≤ c && c ≤ '9') || c = '+' || c = '-' || c = '.'

/-- The parts of a parsed URL used by the extractor. -/
structure URLParts where
  scheme : String
  hostname : String
  pathname : String
  query : String
deriving DecidableEq, Repr

/-- Hostname from the authority component: drop userinfo (everything up to
the last `@`), then drop the port (everything from the first `:`), and
lower-case. -/
def hostOfAuthority (auth : List Char) : List Char :=
  let afterUser := if auth.contains '@' then (auth.reverse.takeWhile (· ≠ '@')).reverse else auth
  (afterUser.takeWhile (· ≠ ':')).map lowerAscii

/-- Model of `new URL(s)` restricted to absolute `scheme://…` inputs; `none`
models the constructor throwing. -/
def parseURL (s : String) : Option URLParts :=
  let cs := s.data
  let scheme := cs.takeWhile isSchemeChar
  let rest := cs.dropWhile isSchemeChar
  match scheme.head? with
  | none => none
  | some c0 =>
    if isSchemeStart c0 then
      match rest with
      | ':' :: '/' :: '/' :: rest2 =>
        let auth := rest2.takeWhile (fun c => c ≠ '/' && c ≠ '?' && c ≠ '#')
        let afterAuth := rest2.dropWhile (fun c => c ≠ '/' && c ≠ '?' && c ≠ '#')
        let path := afterAuth.takeWhile (fun c => c ≠ '?' && c ≠ '#')
        let afterPath := afterAuth.dropWhile (fun c => c ≠ '?' && c ≠ '#')
        let query := match afterPath with
          | '?' :: qs => qs.takeWhile (· ≠ '#')
          | _ => []
        let host := hostOfAuthority auth
        if host = [] then none
        else some ⟨⟨scheme.map lowerAscii⟩, ⟨host⟩, ⟨path⟩, ⟨query⟩⟩
      | _ => none
    else none

/-- `hostname.replace(/^www\./, "")`. -/
def stripWww (h : List Char) : List Char :=
  match h with
  | 'w' :: 'w' :: 'w' :: '.' :: rest => rest
  | _ => h

/-- `u.pathname.split("/").filter(Boolean)`. -/
def pathSegs (u : URLParts) : List String :=
  ((splitChars '/' u.pathname.data).map String.mk).filter (fun p => p ≠ "")

/-- `u.searchParams.get(key)`: first `&`-separated pair whose key (the part
before the first `=`) matches; its value is everything after that `=`
(empty when there is no `=`). -/
def queryGet (u : URLParts) (key : String) : Option String :=
  ((splitChars '&' u.query.data).find? (fun part => part.takeWhile (· ≠ '=') = key.data)).map
    (fun part => ⟨(part.dropWhile (· ≠ '=')).drop 1⟩)

/-- The `/shorts/<id>`, `/embed/<id>` fallback path of the extractor. -/
def shortsOrEmbed (u : URLParts) : Option String :=
  let parts := pathSegs u
  match parts.findIdx? (fun p => p = "shorts" || p = "embed") with
  | some idx =>
    match parts.get? (idx + 1) with
    | some cand => if isValidId cand then some cand else none
    | none => none
  | none => none

/-- `extractYouTubeId` from `src/app/admin/page.tsx`: bare 11-character id,
`youtu.be/<id>`, `watch?v=<id>`, or `/shorts|embed/<id>`; every path
validates the candidate against `isValidId` before succeeding. -/
def extractYouTubeId (input : String) : Option String :=
  let s := jsTrim input
  if s = "" then none
  else if isValidId s then some s
  else
    match parseURL s with
    | none => none
    | some u =>
      let host : String := ⟨stripWww u.hostname.data⟩
      if host = "youtu.be" then
        match (pathSegs u).head? with
        | some cand => if isValidId cand then some cand else none
        | none => none
      else
        match queryGet u "v" with
        | some v => if v ≠ "" ∧ isValidId v then some v else shortsOrEmbed u
        | none => shortsOrEmbed u

/-! ## JSON values and `JSON.parse`
(platform collaborators used by `src/app/videos/[id]/page.tsx`)

`JSON.parse` is modelled by an exact recursive-descent parser over the JSON
grammar.  Numbers keep their source text (JavaScript's canonical number
re-formatting is not modelled; no theorem below stringifies a number).
`\uXXXX` escapes map through `Char.ofNat` (surrogate-pair recombination is
not modelled; no theorem exercises it). -/

mutual

/-- A JSON value, as stored in a `jsonb` column or produced by `JSON.parse`.
Arrays and objects carry their own list types so that every function below
is plain structural recursion. -/
inductive JVal where
  | jnull
  | jbool (b : Bool)
  | jnum (raw : String)
  | jstr (s : String)
  | jarr (elems : JList)
  | jobj (fields : JPairs)

/-- The elements of a JSON array. -/
inductive JList where
  | nil
  | cons (hd : JVal) (tl : JList)

/-- The members of a JSON object. -/
inductive JPairs where
  | nil
  | cons (key : String) (val : JVal) (tl : JPairs)

end

/-- View the elements of a JSON array as an ordinary list. -/
def jlistToList : JList → List JVal
  | .nil => []
  | .cons v tl => v :: jlistToList tl

/-- Build a JSON array from an ordinary list of values. -/
def jlistOfList : List JVal → JList
  | [] => .nil
  | v :: tl => .cons v (jlistOfList tl)

/-- JSON insignificant whitespace. -/
def jsonSkipWs (cs : List Char) : List Char :=
  cs.dropWhile (fun c => c = ' ' || c = '\t' || c = '\n' || c = '\r')

/-- Value of a hexadecimal digit, by code point: `0`–`9` are 48–57,
`A`–`F` are 65–70 (value = code − 55), `a`–`f` are 97–102 (value =
code − 87). -/
def hexDigit? (c : Char) : Option Nat :=
  let n := c.toNat
  if 48 ≤ n ∧ n ≤ 57 then some (n - 48)
  else if 97 ≤ n ∧ n ≤ 102 then some (n - 87)
  else if 65 ≤ n ∧ n ≤ 70 then some (n - 55)
  else none

/-- Single-character JSON string escapes. -/
def jsonEscChar? : Char → Option Char
  | '"' => some '"'
  | '\\' => some '\\'
  | '/' => some '/'
  | 'b' => some (Char.ofNat 8)
  | 'f' => some (Char.ofNat 12)
  | 'n' => some '\n'
  | 'r' => some '\r'
  | 't' => some '\t'
  | _ => none

/-- Parse the body of a JSON string (positioned after the opening quote);
returns the decoded content and the input after the closing quote. -/
def jsonParseString : Nat → List Char → Option (List Char × List Char)
  | 0, _ => none
  | _ + 1, [] => none
  | _ + 1, '"' :: rest => some ([], rest)
  | f + 1, '\\' :: 'u' :: a :: b :: c :: d :: r =>
    match hexDigit? a, hexDigit? b, hexDigit? c, hexDigit? d with
    | some ha, some hb, some hc, some hd =>
      (jsonParseString f r).map fun p =>
        (Char.ofNat (((ha * 16 + hb) * 16 + hc) * 16 + hd) :: p.1, p.2)
    | _, _, _, _ => none
  | f + 1, '\\' :: e :: r =>
    match jsonEscChar? e with
    | some c => (jsonParseString f r).map fun p => (c :: p.1, p.2)
    | none => none
  | _ + 1, '\\' :: [] => none
  | f + 1, c :: r =>
    if c.toNat < 32 then none
    else (jsonParseString f r).map fun p => (c :: p.1, p.2)

/-- Integer part of a JSON number: `0` or a nonzero digit followed by digits. -/
def jsonIntPart : List Char → Option (List Char × List Char)
  | '0' :: r => some (['0'], r)
  | c :: r =>
    if '1' ≤ c && c ≤ '9' then
      some (c :: r.takeWhile Char.isDigit, r.dropWhile Char.isDigit)
    else none
  | [] => none

/-- Optional fraction part of a JSON number. -/
def jsonFracPart : List Char → Option (List Char × List Char)
  | '.' :: r =>
    let ds := r.takeWhile Char.isDigit
    if ds = [] then none else some ('.' :: ds, r.dropWhile Char.isDigit)
  | cs => some ([], cs)

/-- Optional exponent part of a JSON number. -/
def jsonExpPart : List Char → Option (List Char × List Char)
  | c :: r =>
    if c = 'e' || c = 'E' then
      let sr : List Char × List Char := match r with
        | '+' :: rr => (['+'], rr)
        | '-' :: rr => (['-'], rr)
        | _ => ([], r)
      let ds := sr.2.takeWhile Char.isDigit
      if ds = [] then none
      else some (c :: sr.1 ++ ds, sr.2.dropWhile Char.isDigit)
    else some ([], c :: r)
  | [] => some ([], [])

/-- Parse a JSON number, keeping its source text. -/
def jsonParseNum (cs : List Char) : Option (JVal × List Char) :=
  let nr : List Char × List Char := match cs with
    | '-' :: r => (['-'], r)
    | _ => ([], cs)
  match jsonIntPart nr.2 with
  | none => none
  | some (ip, cs2) =>
    match jsonFracPart cs2 with
    | none => none
    | some (fp, cs3) =>
      match jsonExpPart cs3 with
      | none => none
      | some (ep, cs4) => some (.jnum ⟨nr.1 ++ ip ++ fp ++ ep⟩, cs4)

mutual

/-- Parse one JSON value (leading whitespace allowed), returning it with the
remaining input.  The fuel argument strictly decreases on every call and is
chosen large enough at the top level that it never runs out. -/
def jsonParseVal : Nat → List Char → Option (JVal × List Char)
  | 0, _ => none
  | f + 1, cs =>
    match jsonSkipWs cs with
    | 'n' :: 'u' :: 'l' :: 'l' :: r => some (.jnull, r)
    | 't' :: 'r' :: 'u' :: 'e' :: r => some (.jbool true, r)
    | 'f' :: 'a' :: 'l' :: 's' :: 'e' :: r => some (.jbool false, r)
    | '"' :: r =>
      match jsonParseString f r with
      | some (content, rest) => some (.jstr ⟨content⟩, rest)
      | none => none
    | '[' :: r =>
      match jsonSkipWs r with
      | ']' :: rest => some (.jarr .nil, rest)
      | _ =>
        match jsonParseItems f r with
        | some (items, rest) => some (.jarr items, rest)
        | none => none
    | '\x7b' :: r =>
      match jsonSkipWs r with
      | '\x7d' :: rest => some (.jobj .nil, rest)
      | _ =>
        match jsonParseFields f r with
        | some (fs, rest) => some (.jobj fs, rest)
        | none => none
    | cs' => jsonParseNum cs'

/-- Parse the comma-separated items of a non-empty JSON array, including the
closing bracket. -/
def jsonParseItems : Nat → List Char → Option (JList × List Char)
  | 0, _ => none
  | f + 1, cs =>
    match jsonParseVal f cs with
    | none => none
    | some (v, rest) =>
      match jsonSkipWs rest with
      | ',' :: r2 =>
        match jsonParseItems f r2 with
        | some (vs, r3) => some (.cons v vs, r3)
        | none => none
      | ']' :: r2 => some (.cons v .nil, r2)
      | _ => none

/-- Parse the comma-separated members of a non-empty JSON object, including
the closing brace. -/
def jsonParseFields : Nat → List Char → Option (JPairs × List Char)
  | 0, _ => none
  | f + 1, cs =>
    match jsonSkipWs cs with
    | '"' :: r =>
      match jsonParseString f r with
      | none => none
      | some (key, r1) =>
        match jsonSkipWs r1 with
        | ':' :: r2 =>
          match jsonParseVal f r2 with
          | none => none
          | some (v, r3) =>
            match jsonSkipWs r3 with
            | ',' :: r4 =>
              match jsonParseFields f r4 with
              | some (fs, r5) => some (.cons ⟨key⟩ v fs, r5)
              | none => none
            | '\x7d' :: r4 => some (.cons ⟨key⟩ v .nil, r4)
            | _ => none
        | _ => none
    | _ => none

end

/-- `JSON.parse(s)`: parse one value and require the rest of the input to be
whitespace.  The fuel `2 * length + 4` always suffices (every two nested
calls consume at least one character), so the model is exact. -/
def jsonParse (s : String) : Option JVal :=
  match jsonParseVal (2 * s.data.length + 4) s.data with
  | some (v, rest) => if jsonSkipWs rest = [] then some v else none
  | none => none

mutual

/-- JavaScript `String(v)` on a JSON value: `null`/booleans render by name,
numbers keep their source text, strings are themselves, objects render as
`[object Object]`, and arrays comma-join their elements (a `null` element
joins as the empty string). -/
def jsToString : JVal → String
  | .jnull => "null"
  | .jbool b => if b then "true" else "false"
  | .jnum raw => raw
  | .jstr s => s
  | .jobj _ => "[object Object]"
  | .jarr l => jarrJoin l

/-- `Array.prototype.join(",")` of the stringified elements. -/
def jarrJoin : JList → String
  | .nil => ""
  | .cons .jnull .nil => ""
  | .cons v .nil => jsToString v
  | .cons .jnull (.cons w tl) => "," ++ jarrJoin (.cons w tl)
  | .cons v (.cons w tl) => jsToString v ++ "," ++ jarrJoin (.cons w tl)

end

/-! ## Record assembly for the detail view (`src/app/videos/[id]/page.tsx`) -/

/-- `normalizeText`: `null` stays `null`, otherwise trim and map empty to
`null`. -/
def normalizeText : Option String → Option String
  | none => none
  | some v =>
    let s := jsTrim v
    if s = "" then none else some s

/-- Is a JSON value falsy in JavaScript?  (A JSON-grammar number is zero iff
its mantissa has no nonzero digit.) -/
def jsFalsy : JVal → Bool
  | .jnull => true
  | .jbool b => !b
  | .jstr s => s = ""
  | .jnum raw =>
    (raw.data.takeWhile (fun c => c ≠ 'e' && c ≠ 'E')).all
      (fun c => !('1' ≤ c && c ≤ '9'))
  | .jarr _ => false
  | .jobj _ => false

/-- `normalizeBullets`: a falsy value gives `[]`; an array gives its elements
stringified, trimmed, empties dropped; a string is trimmed (empty gives `[]`)
and then `JSON.parse`d — an array result gives its elements stringified,
trimmed, empties dropped, a parse error gives the trimmed original as a
singleton, and any other successful parse falls through to `[]`. -/
def normalizeBullets (v : JVal) : List String :=
  if jsFalsy v then []
  else
    match v with
    | .jarr l => (((jlistToList l).map jsToString).map jsTrim).filter (fun s => s ≠ "")
    | .jstr s =>
      let trimmed := jsTrim s
      if trimmed = "" then []
      else
        match jsonParse trimmed with
        | some (.jarr l) =>
          (((jlistToList l).map jsToString).map jsTrim).filter (fun s => s ≠ "")
        | some _ => []
        | none => [trimmed]
    | _ => []

/-- One `video_observation_notes` row as the detail page receives it:
creation timestamp (milliseconds; `null` when the column is null), nullable
text, and the `jsonb` points column. -/
structure NoteRow where
  created_at : Option Nat
  observation_text : Option String
  observation_points : JVal

/-- `pickFirst(n, ["observation_text", …aliases])`: the alias keys are absent
from the row shape, so the lookup collapses to the first key — skipped when
null or blank after trimming. -/
def pickFirstText (n : NoteRow) : Option String :=
  match n.observation_text with
  | none => none
  | some s => if jsTrim s = "" then none else some s

/-- `pickFirstArray(n, ["observation_points", …aliases])`: an array is
returned as-is, a non-blank string as-is; anything else falls through to the
default `[]`. -/
def pickFirstPoints (n : NoteRow) : JVal :=
  match n.observation_points with
  | .jarr l => .jarr l
  | .jstr s => if jsTrim s ≠ "" then .jstr s else .jarr .nil
  | _ => .jarr .nil

/-- The per-note view record displayed on the detail page. -/
structure DisplayNote where
  text : Option String
  bullets : List String
deriving DecidableEq, Repr

/-- Normalize one note row for display. -/
def displayOfNote (n : NoteRow) : DisplayNote :=
  ⟨normalizeText (pickFirstText n), normalizeBullets (pickFirstPoints n)⟩

/-- Sort key of a note: `new Date(created_at ?? 0).getTime()`. -/
def noteKey (n : NoteRow) : Nat :=
  n.created_at.getD 0

/-- Stable sort of the notes by creation time, ascending
(`rawNotes.sort((a, b) => ta - tb)`, and `Array.prototype.sort` is stable). -/
def sortNotesAsc (rows : List NoteRow) : List NoteRow :=
  stableSort (fun b x => noteKey b ≤ noteKey x) rows

/-- The filter applied after normalization:
`(n.text && n.text.length) || n.bullets.length > 0`. -/
def noteDisplayed (d : DisplayNote) : Bool :=
  (match d.text with
   | some t => t ≠ ""
   | none => false) || d.bullets ≠ []

/-- The note list as assembled by the detail page: sort ascending by
creation time, normalize each row, drop content-empty notes. -/
def assembleNotes (rows : List NoteRow) : List DisplayNote :=
  ((sortNotesAsc rows).map displayOfNote).filter noteDisplayed

/-! ## The bulk write coordinator (`saveAllAction` in `src/app/admin/page.tsx`)

The five tables are modelled as explicit state.  All four dependent tables
are written through `upsertByVideoId`, which issues `upsert(payload,
{ onConflict: "video_id" })` and whose comment records the schema assumption
`UNIQUE(video_id)` for each of them, so each dependent table is a list of
rows keyed by `video_id` in which an upsert replaces the existing row.
The storage backend may reject any individual write; this is modelled by a
`FailSpec` oracle saying which writes the backend rejects (the dev-only
`simulate_fail` payloads in the source are one way to induce exactly such
rejections).  `published_year` keeps the trimmed raw digits; the JavaScript
`Number(...)` coercion is not modelled, as nothing below inspects the
numeric value. -/

/-- The flat submission produced by the bulk form: `String(formData.get(k)
?? "")` for each named field. -/
structure Submission where
  youtube_url : String
  title : String
  channel_name : String
  thumbnail_url : String
  published_year : String
  hitokoto_summary : String
  product_value_focus : String
  visual_main_character : String
  emotional_tone : String
  product_value_focus_detail : String
  visual_main_character_detail : String
  appeal_method : String
  appeal_method_detail : String
  emotional_tone_detail : String
  observation_text : String
  observation_points : String
deriving Repr

/-- `x.length ? x : null` applied to a trimmed field. -/
def optTrim (s : String) : Option String :=
  let t := jsTrim s
  if t = "" then none else some t

/-- One `videos` row. -/
structure VideoRow where
  id : Nat
  youtube_id : String
  title : String
  channel_name : Option String
  thumbnail_url : Option String
  published_year : Option String
deriving DecidableEq, Repr

/-- The `video_core_summary` payload. -/
structure SummaryPayload where
  hitokoto_summary : String
deriving DecidableEq, Repr

/-- The `video_structure_core` payload. -/
structure CorePayload where
  product_value_focus : Option String
  visual_main_character : Option String
  emotional_tone : Option String
deriving DecidableEq, Repr

/-- The `video_structure_detail` payload. -/
structure DetailPayload where
  product_value_focus_detail : String
  visual_main_character_detail : Option String
  appeal_method : Option String
  appeal_method_detail : Option String
  emotional_tone_detail : Option String
deriving DecidableEq, Repr

/-- The `video_observation_notes` payload. -/
structure NotePayload where
  observation_text : String
  observation_points : Option (List String)
deriving DecidableEq, Repr

/-- The five tables.  Each dependent table is keyed by `video_id`
(`UNIQUE(video_id)` per the source's schema assumption); `nextId` models the
backend's id generator for new `videos` rows. -/
structure DB where
  videos : List VideoRow
  video_core_summary : List (Nat × SummaryPayload)
  video_structure_core : List (Nat × CorePayload)
  video_structure_detail : List (Nat × DetailPayload)
  video_observation_notes : List (Nat × NotePayload)
  nextId : Nat
deriving DecidableEq, Repr

/-- The empty database. -/
def emptyDB : DB := ⟨[], [], [], [], [], 0⟩

/-- Which writes the storage backend rejects during one submission. -/
structure FailSpec where
  videos : Bool
  core_summary : Bool
  structure_core : Bool
  structure_detail : Bool
  observation_notes : Bool
deriving DecidableEq, Repr

/-- The oracle under which every write succeeds. -/
def noFail : FailSpec := ⟨false, false, false, false, false⟩

/-- Upsert-on-conflict into a table keyed by `video_id`: replace the row
with the matching key, or append a new one. -/
def upsertKeyed {α : Type} (rows : List (Nat × α)) (k : Nat) (a : α) :
    List (Nat × α) :=
  if rows.any (fun p => p.1 = k) then
    rows.map (fun p => if p.1 = k then (k, a) else p)
  else rows ++ [(k, a)]

/-- Look up the row keyed `k`. -/
def keyedLookup {α : Type} (rows : List (Nat × α)) (k : Nat) : Option α :=
  (rows.find? (fun p => p.1 = k)).map Prod.snd

/-- Step ① of `saveAllAction`: upsert into `videos` with
`onConflict: "youtube_id"` and return the row's internal id.  On conflict the
existing row keeps its id and its other fields are overwritten; otherwise a
fresh row is inserted. -/
def upsertVideosRow (db : DB) (youtube_id title : String)
    (channel_name thumbnail_url published_year : Option String) : Nat × DB :=
  match db.videos.find? (fun v => v.youtube_id = youtube_id) with
  | some v =>
    (v.id,
      { db with
        videos := db.videos.map fun w =>
          if w.youtube_id = youtube_id then
            { w with
              title := title
              channel_name := channel_name
              thumbnail_url := thumbnail_url
              published_year := published_year }
          else w })
  | none =>
    (db.nextId,
      { db with
        videos := db.videos ++
          [⟨db.nextId, youtube_id, title, channel_name, thumbnail_url, published_year⟩]
        nextId := db.nextId + 1 })

/-- The submission's `video_core_summary` payload. -/
def summaryPayload (sub : Submission) : SummaryPayload :=
  ⟨jsTrim sub.hitokoto_summary⟩

/-- The submission's `video_structure_core` payload. -/
def corePayload (sub : Submission) : CorePayload :=
  ⟨optTrim sub.product_value_focus, optTrim sub.visual_main_character,
    optTrim sub.emotional_tone⟩

/-- The submission's `video_structure_detail` payload. -/
def detailPayload (sub : Submission) : DetailPayload :=
  ⟨jsTrim sub.product_value_focus_detail, optTrim sub.visual_main_character_detail,
    optTrim sub.appeal_method, optTrim sub.appeal_method_detail,
    optTrim sub.emotional_tone_detail⟩

/-- The bullet points entered in the form, one per line, trimmed, empties
dropped. -/
def subPoints (sub : Submission) : List String :=
  ((splitNewlines sub.observation_points).map jsTrim).filter (fun p => p ≠ "")

/-- The submission's `video_observation_notes` payload. -/
def notePayload (sub : Submission) : NotePayload :=
  ⟨jsTrim sub.observation_text,
    if subPoints sub = [] then none else some (subPoints sub)⟩

/-- The outcome reported by `saveAllAction` through its redirect:
the three fatal redirects (unextractable id, missing required fields,
failed `videos` upsert), `bulk_saved_partial` with the failed-steps list,
or `bulk_saved`. -/
inductive SaveResult where
  | fatalBadId
  | fatalValidation
  | fatalVideos
  | stepFailures (failed : List String)
  | allSaved
deriving DecidableEq, Repr

/-- What one call to `saveAllAction` produces: the reported result, the
database afterwards, and the `logAdminError` entries (label and the logged
identifier) emitted along the way. -/
structure SaveOutcome where
  result : SaveResult
  db : DB
  log : List (String × String)
deriving DecidableEq, Repr

/-- The running state of the dependent-write sequence: failed-step labels in
attempt order, the database, and the error log. -/
structure StepState where
  failures : List String
  db : DB
  log : List (String × String)
deriving DecidableEq, Repr

/-- One dependent-table block of `saveAllAction`: call `upsertByVideoId`;
on a backend rejection push the step label and log it with the entity id,
leaving the table unchanged; on success apply the write.  Execution always
continues with the next block. -/
def runDepStep (fail : Bool) (label : String) (video_id : Nat)
    (write : DB → DB) (st : StepState) : StepState :=
  if fail then
    { st with
      failures := st.failures ++ [label]
      log := st.log ++ [("saveAllAction:" ++ label, toString video_id)] }
  else { st with db := write st.db }

/-- Does the submission pass the coordinator's required-field guard
(`!title || !hitokoto_summary || !product_value_focus_detail ||
!observation_text` aborts)? -/
def fieldsOk (sub : Submission) : Prop :=
  jsTrim sub.title ≠ "" ∧ jsTrim sub.hitokoto_summary ≠ "" ∧
    jsTrim sub.product_value_focus_detail ≠ "" ∧ jsTrim sub.observation_text ≠ ""

instance (sub : Submission) : Decidable (fieldsOk sub) := by
  unfold fieldsOk; infer_instance

/-- `saveAllAction` from `src/app/admin/page.tsx`: extract the external id
(fatal on failure), trim every field, enforce the required-field guard
(fatal, before any write), upsert the `videos` row keyed by the external id
(fatal on failure), then attempt the four dependent upserts in fixed order,
collecting failures without stopping, and finally report full or partial
success. -/
def saveAllAction (fs : FailSpec) (sub : Submission) (db : DB) : SaveOutcome :=
  match extractYouTubeId sub.youtube_url with
  | none => ⟨.fatalBadId, db, []⟩
  | some youtube_id =>
    if jsTrim sub.title = "" ∨ jsTrim sub.hitokoto_summary = "" ∨
        jsTrim sub.product_value_focus_detail = "" ∨ jsTrim sub.observation_text = "" then
      ⟨.fatalValidation, db, []⟩
    else if fs.videos then
      ⟨.fatalVideos, db, [("saveAllAction:upsert_videos", youtube_id)]⟩
    else
      let step1 := upsertVideosRow db youtube_id (jsTrim sub.title)
        (optTrim sub.channel_name) (optTrim sub.thumbnail_url)
        (optTrim sub.published_year)
      let video_id := step1.1
      let st1 := runDepStep fs.core_summary "core_summary" video_id
        (fun d => { d with
          video_core_summary :=
            upsertKeyed d.video_core_summary video_id (summaryPayload sub) })
        ⟨[], step1.2, []⟩
      let st2 := runDepStep fs.structure_core "structure_core" video_id
        (fun d => { d with
          video_structure_core :=
            upsertKeyed d.video_structure_core video_id (corePayload sub) })
        st1
      let st3 := runDepStep fs.structure_detail "structure_detail" video_id
        (fun d => { d with
          video_structure_detail :=
            upsertKeyed d.video_structure_detail video_id (detailPayload sub) })
        st2
      let st4 := runDepStep fs.observation_notes "observation_notes" video_id
        (fun d => { d with
          video_observation_notes :=
            upsertKeyed d.video_observation_notes video_id (notePayload sub) })
        st3
      if st4.failures = [] then ⟨.allSaved, st4.db, st4.log⟩
      else ⟨.stepFailures st4.failures, st4.db, st4.log⟩

/-! ## Supporting lemmas -/

theorem insertStable_perm {α : Type} (keep : α → α → Bool) (x : α) (l : List α) :
    (insertStable keep x l).Perm (x :: l) := by
  induction l with
  | nil => simp [insertStable]
  | cons b bs ih =>
    simp only [insertStable]
    split
    · exact ((ih.cons b).trans (List.Perm.swap x b bs)).symm.symm
    · exact List.Perm.refl _

theorem stableSort_perm_aux {α : Type} (keep : α → α → Bool) (l acc : List α) :
    (l.foldl (fun acc x => insertStable keep x acc) acc).Perm (acc ++ l) := by
  induction l generalizing acc with
  | nil => simp
  | cons y ys ih =>
    simp only [List.foldl_cons]
    refine (ih (insertStable keep y acc)).trans ?_
    refine (((insertStable_perm keep y acc).append_right ys).trans ?_)
    exact List.perm_middle.symm

theorem stableSort_perm {α : Type} (keep : α → α → Bool) (l : List α) :
    (stableSort keep l).Perm l := by
  simpa using stableSort_perm_aux keep l []

theorem mem_stableSort {α : Type} (keep : α → α → Bool) (l : List α) (a : α) :
    a ∈ stableSort keep l ↔ a ∈ l :=
  (stableSort_perm keep l).mem_iff

theorem mem_uniqFirstAux (l : List String) :
    ∀ seen s, s ∈ uniqFirstAux seen l ↔ s ∈ l ∧ s ∉ seen := by
  induction l with
  | nil => simp [uniqFirstAux]
  | cons x xs ih =>
    intro seen s
    by_cases hx : x ∈ seen
    · rw [uniqFirstAux, if_pos hx, ih]
      by_cases hsx : s = x
      · subst hsx; simp [hx]
      · simp [hsx]
    · rw [uniqFirstAux, if_neg hx]
      by_cases hsx : s = x
      · subst hsx; simp [hx]
      · simp [hsx, ih]

theorem mem_uniqFirst (l : List String) (s : String) :
    s ∈ uniqFirst l ↔ s ∈ l := by
  rw [uniqFirst, mem_uniqFirstAux]
  simp

theorem nodup_uniqFirstAux (l : List String) :
    ∀ seen, (uniqFirstAux seen l).Nodup := by
  induction l with
  | nil => simp [uniqFirstAux]
  | cons x xs ih =>
    intro seen
    by_cases hx : x ∈ seen
    · rw [uniqFirstAux, if_pos hx]
      exact ih seen
    · rw [uniqFirstAux, if_neg hx, List.nodup_cons]
      refine ⟨?_, ih _⟩
      intro hmem
      have := (mem_uniqFirstAux xs _ x).mp hmem
      simp at this

theorem nodup_uniqFirst (l : List String) : (uniqFirst l).Nodup :=
  nodup_uniqFirstAux l []

theorem jsTrim_empty : jsTrim "" = "" := rfl

theorem jsTrim_ne_empty_of_trim {s : String} (h : jsTrim s ≠ "") : s ≠ "" := by
  intro hs
  exact h (hs ▸ jsTrim_empty)

theorem rowMatches_pvf (V : String) (hV : V ≠ NULL_SENTINEL) (v : ListedVideo) :
    rowMatches ⟨some V, none, none⟩ v = true ↔
      ∃ c, v.core = some c ∧ c.product_value_focus = some V := by
  cases hc : v.core <;>
    simp [rowMatches, hasFilterB, facetPred, hc, hV]

theorem rowMatches_vmc (V : String) (hV : V ≠ NULL_SENTINEL) (v : ListedVideo) :
    rowMatches ⟨none, some V, none⟩ v = true ↔
      ∃ c, v.core = some c ∧ c.visual_main_character = some V := by
  cases hc : v.core <;>
    simp [rowMatches, hasFilterB, facetPred, hc, hV]

theorem rowMatches_tone (V : String) (hV : V ≠ NULL_SENTINEL) (v : ListedVideo) :
    rowMatches ⟨none, none, some V⟩ v = true ↔
      ∃ c, v.core = some c ∧ c.emotional_tone = some V := by
  cases hc : v.core <;>
    simp [rowMatches, hasFilterB, facetPred, hc, hV]

theorem getParam_of_blank (v : Option SPVal)
    (h : v = none ∨ ∃ s, v = some (.str s) ∧ jsTrim s = "") :
    getParam v = none := by
  rcases h with rfl | ⟨s, rfl, hs⟩
  · rfl
  · by_cases h0 : s = "" <;> simp [getParam, h0, hs]

/-! ## The claims -/

/-- C8: for any sample of facet rows, the option catalog holds, for each
column, exactly the observed string values whose trimmed form is non-empty,
each exactly once and with no empty or whitespace-only entry, and the
`hasNull` flag is true iff some sampled row holds an actual null (empty and
whitespace-only strings never counting); in particular the sample
`[{pvf:"A"}, {pvf:null}, {pvf:"A"}, {pvf:""}]` yields options `["A"]` and
`hasNull = true`. -/
theorem claim_C8 :
    (∀ values s, s ∈ uniqNonEmpty values ↔ some s ∈ values ∧ jsTrim s ≠ "") ∧
    (∀ values, (uniqNonEmpty values).Nodup) ∧
    (∀ values s, s ∈ uniqNonEmpty values → s ≠ "" ∧ jsTrim s ≠ "") ∧
    (∀ values, hasNullF values = true ↔ none ∈ values) ∧
    (uniqNonEmpty [some "A", none, some "A", some ""] = ["A"] ∧
      hasNullF [some "A", none, some "A", some ""] = true) := by
  have hmem : ∀ values s, s ∈ uniqNonEmpty values ↔ some s ∈ values ∧ jsTrim s ≠ "" := by
    intro values s
    rw [uniqNonEmpty, mem_uniqFirst, List.mem_filterMap]
    constructor
    · rintro ⟨a, ha, hfa⟩
      cases a with
      | none => simp at hfa
      | some t =>
        dsimp only at hfa
        split at hfa
        · rename_i hg
          obtain rfl : t = s := by injection hfa
          exact ⟨ha, hg.2⟩
        · simp at hfa
    · rintro ⟨hs, hts⟩
      exact ⟨some s, hs, by simp [hts, jsTrim_ne_empty_of_trim hts]⟩
  refine ⟨hmem, ?_, ?_, ?_, by decide, by decide⟩
  · intro values
    exact nodup_uniqFirst _
  · intro values s hs
    have h := ((hmem values s).mp hs).2
    exact ⟨jsTrim_ne_empty_of_trim h, h⟩
  · intro values
    simp [hasNullF]

/-- C8, instantiated: the membership characterization applied to a concrete
sample. -/
theorem claim_C8_witness :
    " A " ∈ uniqNonEmpty [some " A ", some "  "] ↔
      some " A " ∈ [some " A ", some "  "] ∧ jsTrim " A " ≠ "" :=
  claim_C8.1 [some " A ", some "  "] " A "

/-- C6: the listing query selects the required (`!inner`) join form iff at
least one facet filter is active, and consequently a video lacking a
`video_structure_core` row can appear in the listing only when no filter is
active. -/
theorem claim_C6 :
    (∀ f : Filters,
      structureSelectInner f = true ↔ (f.pvf ≠ none ∨ f.vmc ≠ none ∨ f.tone ≠ none)) ∧
    (∀ f vids v, v ∈ listedVideos f vids → v.core = none →
      f.pvf = none ∧ f.vmc = none ∧ f.tone = none) := by
  constructor
  · intro f
    simp [structureSelectInner, hasFilterB, Option.isSome_iff_ne_none, or_assoc]
  · intro f vids v hv hcore
    have h1 : v ∈ matchingVideos f vids := by
      have h2 : v ∈ sortDesc (matchingVideos f vids) :=
        List.Sublist.mem hv (List.take_sublist _ _)
      exact (mem_stableSort _ _ _).mp h2
    have h2 := (List.mem_filter.mp h1).2
    by_cases hf : hasFilterB f = true
    · rw [rowMatches, if_pos hf, hcore] at h2
      exact absurd h2 (by simp)
    · cases hp : f.pvf <;> cases hm : f.vmc <;> cases ht : f.tone <;>
        simp_all [hasFilterB]

/-- C6, instantiated: a video without a facet row is listed under the empty
filter, and the characterization of the join form at that filter. -/
theorem claim_C6_witness :
    Filters.mk none none none = ⟨none, none, none⟩ ∧
    (⟨0, none, 7, none⟩ : ListedVideo) ∈ listedVideos ⟨none, none, none⟩
        [⟨0, none, 7, none⟩] ∧
    ((⟨0, none, 7, none⟩ : ListedVideo) ∈ listedVideos ⟨none, none, none⟩
        [⟨0, none, 7, none⟩] →
      (⟨0, none, 7, none⟩ : ListedVideo).core = none →
      (Filters.mk none none none).pvf = none ∧
        (Filters.mk none none none).vmc = none ∧
        (Filters.mk none none none).tone = none) :=
  ⟨rfl, by decide, claim_C6.2 ⟨none, none, none⟩ [⟨0, none, 7, none⟩] _⟩

/-- C7: each active facet filter contributes exactly the predicate of its
own column — a concrete value demands equality there, the null-sentinel
demands null there — combined conjunctively: filtering one column by a value
`V` keeps exactly the videos whose facet row has that column equal to `V`,
filtering by the sentinel keeps exactly those whose facet row has null
there, and two active filters keep exactly the intersection of their
individual results. -/
theorem claim_C7 :
    (∀ vids V, V ≠ NULL_SENTINEL → ∀ v,
      v ∈ matchingVideos ⟨some V, none, none⟩ vids ↔
        v ∈ vids ∧ ∃ c, v.core = some c ∧ c.product_value_focus = some V) ∧
    (∀ vids V, V ≠ NULL_SENTINEL → ∀ v,
      v ∈ matchingVideos ⟨none, some V, none⟩ vids ↔
        v ∈ vids ∧ ∃ c, v.core = some c ∧ c.visual_main_character = some V) ∧
    (∀ vids V, V ≠ NULL_SENTINEL → ∀ v,
      v ∈ matchingVideos ⟨none, none, some V⟩ vids ↔
        v ∈ vids ∧ ∃ c, v.core = some c ∧ c.emotional_tone = some V) ∧
    (∀ vids v,
      v ∈ matchingVideos ⟨some NULL_SENTINEL, none, none⟩ vids ↔
        v ∈ vids ∧ ∃ c, v.core = some c ∧ c.product_value_focus = none) ∧
    (∀ vids s1 s2 v,
      v ∈ matchingVideos ⟨some s1, some s2, none⟩ vids ↔
        v ∈ matchingVideos ⟨some s1, none, none⟩ vids ∧
          v ∈ matchingVideos ⟨none, some s2, none⟩ vids) := by
  refine ⟨?_, ?_, ?_, ?_, ?_⟩
  · intro vids V hV v
    rw [matchingVideos, List.mem_filter, rowMatches_pvf V hV]
  · intro vids V hV v
    rw [matchingVideos, List.mem_filter, rowMatches_vmc V hV]
  · intro vids V hV v
    rw [matchingVideos, List.mem_filter, rowMatches_tone V hV]
  · intro vids v
    rw [matchingVideos, List.mem_filter]
    cases hc : v.core <;>
      simp [rowMatches, hasFilterB, facetPred, hc, NULL_SENTINEL]
  · intro vids s1 s2 v
    simp only [matchingVideos, List.mem_filter]
    cases hc : v.core
    · simp [rowMatches, hasFilterB, facetPred, hc]
    · simp [rowMatches, hasFilterB, facetPred, hc]
      tauto

/-- C7, instantiated: the value-filter characterization at a concrete
database and value. -/
theorem claim_C7_witness :
    (⟨1, none, 3, some ⟨some "A", none, none⟩⟩ : ListedVideo) ∈
        matchingVideos ⟨some "A", none, none⟩
          [⟨1, none, 3, some ⟨some "A", none, none⟩⟩] ↔
      (⟨1, none, 3, some ⟨some "A", none, none⟩⟩ : ListedVideo) ∈
          [(⟨1, none, 3, some ⟨some "A", none, none⟩⟩ : ListedVideo)] ∧
        ∃ c, (⟨1, none, 3, some ⟨some "A", none, none⟩⟩ : ListedVideo).core = some c ∧
          c.product_value_focus = some "A" :=
  claim_C7.1 [⟨1, none, 3, some ⟨some "A", none, none⟩⟩] "A" (by decide) _

/-- C10: a facet search parameter that is absent, empty, or whitespace-only
normalizes to absent, and a request whose selections are all such blanks
produces the unfiltered query: no active filter, the optional join form, no
predicate (every video row passes), ordering and cap unchanged. -/
theorem claim_C10 :
    (∀ v, (v = none ∨ ∃ s, v = some (.str s) ∧ jsTrim s = "") → getParam v = none) ∧
    (∀ sp : String → Option SPVal,
      (sp "pvf" = none ∨ ∃ s, sp "pvf" = some (.str s) ∧ jsTrim s = "") →
      (sp "vmc" = none ∨ ∃ s, sp "vmc" = some (.str s) ∧ jsTrim s = "") →
      (sp "tone" = none ∨ ∃ s, sp "tone" = some (.str s) ∧ jsTrim s = "") →
      homeFilters sp = ⟨none, none, none⟩ ∧
      structureSelectInner (homeFilters sp) = false ∧
      (∀ vids, matchingVideos (homeFilters sp) vids = vids) ∧
      (∀ vids, listedVideos (homeFilters sp) vids = (sortDesc vids).take 50)) := by
  refine ⟨getParam_of_blank, ?_⟩
  intro sp h1 h2 h3
  have e : homeFilters sp = ⟨none, none, none⟩ := by
    simp [homeFilters, getParam_of_blank _ h1, getParam_of_blank _ h2,
      getParam_of_blank _ h3]
  have hall : ∀ vids, matchingVideos (homeFilters sp) vids = vids := by
    intro vids
    rw [e]
    exact List.filter_eq_self.mpr (fun a _ => rfl)
  exact ⟨e, by rw [e]; rfl, hall, fun vids => by rw [listedVideos, hall]⟩

/-- C10, instantiated: a request whose only supplied selection is a
whitespace-only string yields the empty filter triple. -/
theorem claim_C10_witness :
    homeFilters (fun k => if k = "pvf" then some (.str "   ") else none) =
      ⟨none, none, none⟩ :=
  (claim_C10.2 (fun k => if k = "pvf" then some (.str "   ") else none)
    (Or.inr ⟨"   ", by decide, by decide⟩) (Or.inl (by decide))
    (Or.inl (by decide))).1

theorem sorted_insertStable_notes (x : NoteRow) (l : List NoteRow)
    (h : List.Sorted (fun a b => noteKey a ≤ noteKey b) l) :
    List.Sorted (fun a b => noteKey a ≤ noteKey b)
      (insertStable (fun b x => noteKey b ≤ noteKey x) x l) := by
  induction l with
  | nil => simp [insertStable]
  | cons b bs ih =>
    rw [List.sorted_cons] at h
    rw [insertStable]
    split
    · rename_i hbx
      rw [List.sorted_cons]
      refine ⟨?_, ih h.2⟩
      intro a ha
      have ha' := (insertStable_perm (fun b x => noteKey b ≤ noteKey x) x bs).mem_iff.mp ha
      rcases List.mem_cons.mp ha' with rfl | ha''
      · simpa using hbx
      · exact h.1 a ha''
    · rename_i hbx
      have hxb : noteKey x ≤ noteKey b := by
        simp only [decide_eq_true_eq] at hbx
        omega
      rw [List.sorted_cons]
      refine ⟨?_, List.sorted_cons.mpr h⟩
      intro a ha
      rcases List.mem_cons.mp ha with rfl | ha'
      · exact hxb
      · exact le_trans hxb (h.1 a ha')

theorem sorted_sortNotesAsc_aux (rows : List NoteRow) :
    ∀ acc, List.Sorted (fun a b => noteKey a ≤ noteKey b) acc →
      List.Sorted (fun a b => noteKey a ≤ noteKey b)
        (rows.foldl (fun acc x => insertStable (fun b x => noteKey b ≤ noteKey x) x acc) acc) := by
  induction rows with
  | nil => intro acc h; exact h
  | cons r rs ih =>
    intro acc h
    exact ih _ (sorted_insertStable_notes r acc h)

theorem sorted_sortNotesAsc (rows : List NoteRow) :
    List.Sorted (fun a b => noteKey a ≤ noteKey b) (sortNotesAsc rows) :=
  sorted_sortNotesAsc_aux rows [] (by simp)

/-- C5, corrected: the assembled view record keeps, sorted by creation time
ascending (stably), exactly the Note rows that display content — a non-empty
trimmed text or at least one normalized bullet; content-empty Note rows are
dropped, which is the sole departure from the original claim's "full
list". -/
theorem claim_C5 (rows : List NoteRow) :
    assembleNotes rows =
      ((sortNotesAsc rows).filter (fun n => noteDisplayed (displayOfNote n))).map
        displayOfNote ∧
    List.Sorted (fun a b => noteKey a ≤ noteKey b) (sortNotesAsc rows) ∧
    (sortNotesAsc rows).Perm rows ∧
    List.Sorted (fun a b => noteKey a ≤ noteKey b)
      ((sortNotesAsc rows).filter (fun n => noteDisplayed (displayOfNote n))) := by
  refine ⟨?_, sorted_sortNotesAsc rows, stableSort_perm _ rows,
    (sorted_sortNotesAsc rows).filter _⟩
  rw [assembleNotes, List.filter_map]
  rfl

/-- C5 as stated is false on the code: a Note row whose text is null and
whose points are null survives the ascending sort but is dropped from the
assembled view, so the full list of Note rows is not kept for display. -/
theorem claim_C5_counterexample :
    assembleNotes [⟨some 5, none, JVal.jnull⟩] = [] ∧
    sortNotesAsc [⟨some 5, none, JVal.jnull⟩] = [⟨some 5, none, JVal.jnull⟩] ∧
    ([(⟨some 5, none, JVal.jnull⟩ : NoteRow)]).length = 1 :=
  ⟨rfl, rfl, rfl⟩

theorem jlist_roundtrip (l : List JVal) : jlistToList (jlistOfList l) = l := by
  induction l with
  | nil => rfl
  | cons v tl ih => simp [jlistOfList, jlistToList, ih]

theorem jsonParse_empty : jsonParse "" = none := rfl

/-- C4, corrected: bullet normalization maps a stored list of strings to its
trimmed elements with empties dropped; a stored string is trimmed (an empty
or whitespace-only one, or `null`, gives `[]`) and then parsed as JSON — a
parsed array contributes its elements stringified, trimmed, empties
dropped, and a parse failure turns the trimmed original into a one-element
list; but when parsing succeeds with a non-array the result is the empty
list, not the one-element list the original claim states.  The claim's
examples `"[\"a\",\"b\"]" ↦ ["a","b"]` and `"plain text" ↦ ["plain text"]`
hold. -/
theorem claim_C4 :
    (∀ ss : List String,
      normalizeBullets (.jarr (jlistOfList (ss.map .jstr))) =
        (ss.map jsTrim).filter (fun s => s ≠ "")) ∧
    (∀ s l, jsonParse (jsTrim s) = some (.jarr l) →
      normalizeBullets (.jstr s) =
        (((jlistToList l).map jsToString).map jsTrim).filter (fun t => t ≠ "")) ∧
    (∀ s, jsTrim s ≠ "" → jsonParse (jsTrim s) = none →
      normalizeBullets (.jstr s) = [jsTrim s]) ∧
    (∀ s v, jsonParse (jsTrim s) = some v → (∀ l, v ≠ .jarr l) →
      normalizeBullets (.jstr s) = []) ∧
    (normalizeBullets .jnull = [] ∧
      (∀ s, jsTrim s = "" → normalizeBullets (.jstr s) = [])) ∧
    (normalizeBullets (.jstr "[\"a\",\"b\"]") = ["a", "b"] ∧
      normalizeBullets (.jstr "plain text") = ["plain text"]) := by
  have hparse_ne : ∀ s v, jsonParse (jsTrim s) = some v → jsTrim s ≠ "" := by
    intro s v h hs
    rw [hs, jsonParse_empty] at h
    exact Option.noConfusion h
  refine ⟨?_, ?_, ?_, ?_, ⟨rfl, ?_⟩, rfl, rfl⟩
  · intro ss
    have hj : ∀ s : String, jsToString (.jstr s) = s := fun s => rfl
    simp [normalizeBullets, jsFalsy, jlist_roundtrip, List.map_map,
      Function.comp_def, hj]
  · intro s l h
    have h0 := hparse_ne s _ h
    have hs0 : ¬s = "" := jsTrim_ne_empty_of_trim h0
    simp [normalizeBullets, jsFalsy, hs0, h0, h]
  · intro s h0 h
    have hs0 : ¬s = "" := jsTrim_ne_empty_of_trim h0
    simp [normalizeBullets, jsFalsy, hs0, h0, h]
  · intro s v h hv
    have h0 := hparse_ne s _ h
    have hs0 : ¬s = "" := jsTrim_ne_empty_of_trim h0
    cases v with
    | jarr l => exact absurd rfl (hv l)
    | jnull => simp [normalizeBullets, jsFalsy, hs0, h0, h]
    | jbool b => simp [normalizeBullets, jsFalsy, hs0, h0, h]
    | jnum raw => simp [normalizeBullets, jsFalsy, hs0, h0, h]
    | jstr t => simp [normalizeBullets, jsFalsy, hs0, h0, h]
    | jobj fs => simp [normalizeBullets, jsFalsy, hs0, h0, h]
  · intro s h
    by_cases h0 : s = "" <;> simp [normalizeBullets, jsFalsy, h0, h]

/-- C4, instantiated: the parsed-array case applied to a concrete stored
string with surrounding whitespace and an empty element. -/
theorem claim_C4_witness :
    normalizeBullets (.jstr " [\"a\", \"\", \"b\"] ") =
      (((jlistToList (.cons (.jstr "a") (.cons (.jstr "")
        (.cons (.jstr "b") .nil)))).map jsToString).map jsTrim).filter
        (fun t => t ≠ "") :=
  claim_C4.2.1 " [\"a\", \"\", \"b\"] "
    (.cons (.jstr "a") (.cons (.jstr "") (.cons (.jstr "b") .nil))) (by rfl)

/-- C4 as stated is false on the code: `"true"` is non-empty after trimming
and parses successfully to a non-array, and the code returns `[]` for it
rather than the one-element list `["true"]` the claim's non-array clause
demands. -/
theorem claim_C4_counterexample :
    normalizeBullets (.jstr "true") = [] ∧
    jsTrim "true" = "true" ∧
    jsonParse "true" = some (.jbool true) ∧
    normalizeBullets (.jstr "true") ≠ [jsTrim "true"] :=
  ⟨rfl, rfl, rfl, by decide⟩

theorem shortsOrEmbed_valid (u : URLParts) (id : String)
    (h : shortsOrEmbed u = some id) : isValidId id = true := by
  rw [shortsOrEmbed] at h
  split at h
  · split at h
    · split at h
      · rename_i hval
        obtain rfl : _ = id := by injection h
        exact hval
      · exact Option.noConfusion h
    · exact Option.noConfusion h
  · exact Option.noConfusion h

theorem extractYouTubeId_valid (s id : String)
    (h : extractYouTubeId s = some id) : isValidId id = true := by
  simp only [extractYouTubeId] at h
  by_cases h0 : jsTrim s = ""
  · rw [if_pos h0] at h
    exact Option.noConfusion h
  · rw [if_neg h0] at h
    by_cases h1 : isValidId (jsTrim s) = true
    · rw [if_pos h1] at h
      obtain rfl : jsTrim s = id := by injection h
      exact h1
    · rw [if_neg h1] at h
      rcases hu : parseURL (jsTrim s) with _ | u
      · simp only [hu] at h
        exact Option.noConfusion h
      · simp only [hu] at h
        by_cases hh : (⟨stripWww u.hostname.data⟩ : String) = "youtu.be"
        · rw [if_pos hh] at h
          rcases hp : (pathSegs u).head? with _ | cand
          · simp only [hp] at h
            exact Option.noConfusion h
          · simp only [hp] at h
            by_cases hc : isValidId cand = true
            · rw [if_pos hc] at h
              obtain rfl : cand = id := by injection h
              exact hc
            · rw [if_neg hc] at h
              exact Option.noConfusion h
        · rw [if_neg hh] at h
          rcases hq : queryGet u "v" with _ | v
          · simp only [hq] at h
            exact shortsOrEmbed_valid _ _ h
          · simp only [hq] at h
            by_cases hvv : v ≠ "" ∧ isValidId v = true
            · rw [if_pos hvv] at h
              obtain rfl : v = id := by injection h
              exact hvv.2
            · rw [if_neg hvv] at h
              exact shortsOrEmbed_valid _ _ h

/-- C9: the identifier extractor returns either a canonical identifier —
exactly 11 characters, all drawn from `[a-zA-Z0-9_-]` — or an explicit
not-found result, on every extraction path; the claim's four examples hold:
a bare id maps to itself, the short-link and query-parameter forms extract
the id, and an unrelated URL yields not-found. -/
theorem claim_C9 :
    (∀ s id, extractYouTubeId s = some id →
      id.data.length = 11 ∧ ∀ c ∈ id.data, isIdChar c = true) ∧
    extractYouTubeId "dQw4w9WgXcQ" = some "dQw4w9WgXcQ" ∧
    extractYouTubeId "https://youtu.be/dQw4w9WgXcQ" = some "dQw4w9WgXcQ" ∧
    extractYouTubeId "https://www.youtube.com/watch?v=dQw4w9WgXcQ" =
      some "dQw4w9WgXcQ" ∧
    extractYouTubeId "https://example.com/x" = none := by
  refine ⟨?_, rfl, rfl, rfl, rfl⟩
  intro s id h
  have hv := extractYouTubeId_valid s id h
  simpa [isValidId, List.all_eq_true] using hv

/-- C9, instantiated: the shape property applied to the extraction of a
bare identifier. -/
theorem claim_C9_witness :
    ("dQw4w9WgXcQ" : String).data.length = 11 ∧
      ∀ c ∈ ("dQw4w9WgXcQ" : String).data, isIdChar c = true :=
  claim_C9.1 "dQw4w9WgXcQ" "dQw4w9WgXcQ" rfl

theorem find?_map_upsert {α : Type} (rows : List (Nat × α)) (k : Nat) (a : α)
    (h : rows.any (fun p => p.1 = k) = true) :
    (rows.map (fun p => if p.1 = k then (k, a) else p)).find?
      (fun p => p.1 = k) = some (k, a) := by
  induction rows with
  | nil => simp at h
  | cons p ps ih =>
    by_cases hp : p.1 = k
    · simp [List.find?_cons, hp]
    · simp only [List.any_cons, hp, decide_eq_true_eq, Bool.or_eq_true,
        false_or] at h
      simp [List.find?_cons, hp, ih (by simpa using h)]

theorem find?_append_left_none {α : Type} (rows : List (Nat × α)) (k : Nat)
    (h : rows.any (fun p => p.1 = k) = false) (l : List (Nat × α)) :
    (rows ++ l).find? (fun p => p.1 = k) = l.find? (fun p => p.1 = k) := by
  induction rows with
  | nil => rfl
  | cons p ps ih =>
    simp only [List.any_cons, Bool.or_eq_false_iff] at h
    have hp : ¬p.1 = k := by simpa using h.1
    simp [List.find?_cons, hp, ih h.2]

theorem keyedLookup_upsertKeyed_self {α : Type} (rows : List (Nat × α))
    (k : Nat) (a : α) : keyedLookup (upsertKeyed rows k a) k = some a := by
  rw [upsertKeyed]
  split
  · rename_i h
    rw [keyedLookup, find?_map_upsert rows k a h]
    rfl
  · rename_i h
    rw [keyedLookup, find?_append_left_none rows k (by
      simp only [Bool.not_eq_true] at h
      exact h)]
    simp [List.find?_cons]

theorem upsertVideosRow_core_summary (db : DB) (y t : String)
    (c th py : Option String) :
    (upsertVideosRow db y t c th py).2.video_core_summary =
      db.video_core_summary := by
  rw [upsertVideosRow]
  split <;> rfl

theorem upsertVideosRow_structure_core (db : DB) (y t : String)
    (c th py : Option String) :
    (upsertVideosRow db y t c th py).2.video_structure_core =
      db.video_structure_core := by
  rw [upsertVideosRow]
  split <;> rfl

theorem upsertVideosRow_structure_detail (db : DB) (y t : String)
    (c th py : Option String) :
    (upsertVideosRow db y t c th py).2.video_structure_detail =
      db.video_structure_detail := by
  rw [upsertVideosRow]
  split <;> rfl

theorem upsertVideosRow_observation_notes (db : DB) (y t : String)
    (c th py : Option String) :
    (upsertVideosRow db y t c th py).2.video_observation_notes =
      db.video_observation_notes := by
  rw [upsertVideosRow]
  split <;> rfl

/-- The failed-step labels determined by the oracle, in the coordinator's
fixed attempt order. -/
def depFailList (fs : FailSpec) : List String :=
  (if fs.core_summary then ["core_summary"] else []) ++
    (if fs.structure_core then ["structure_core"] else []) ++
    (if fs.structure_detail then ["structure_detail"] else []) ++
    (if fs.observation_notes then ["observation_notes"] else [])

/-- The internal id the coordinator obtains from the step-① upsert. -/
def step1Id (sub : Submission) (db : DB) (y : String) : Nat :=
  (upsertVideosRow db y (jsTrim sub.title) (optTrim sub.channel_name)
    (optTrim sub.thumbnail_url) (optTrim sub.published_year)).1

/-- C2: when the required-field guard passes and the step-① `videos` upsert
succeeds, a storage failure in any dependent write is caught, logged with
the table's label and the entity id, and recorded in the failed-steps list
in the fixed attempt order; every other dependent write is still attempted
and takes effect; the result is partial success with exactly that list iff
it is non-empty and full success iff it is empty (so no fatal outcome can
arise past validation and step ①); in particular, failing only the Detail
write reports `partial(["structure_detail"])` while Summary, FacetTriple and
the Note are persisted and the Detail table is untouched. -/
theorem claim_C2 (fs : FailSpec) (sub : Submission) (db : DB) (y : String)
    (hext : extractYouTubeId sub.youtube_url = some y)
    (hval : fieldsOk sub)
    (hvid : fs.videos = false) :
    ((saveAllAction fs sub db).result =
      if depFailList fs = [] then SaveResult.allSaved
      else SaveResult.stepFailures (depFailList fs)) ∧
    ((saveAllAction fs sub db).log = (depFailList fs).map
      (fun l => ("saveAllAction:" ++ l, toString (step1Id sub db y)))) ∧
    (fs.core_summary = false →
      keyedLookup (saveAllAction fs sub db).db.video_core_summary (step1Id sub db y) =
        some (summaryPayload sub)) ∧
    (fs.core_summary = true →
      (saveAllAction fs sub db).db.video_core_summary = db.video_core_summary) ∧
    (fs.structure_core = false →
      keyedLookup (saveAllAction fs sub db).db.video_structure_core (step1Id sub db y) =
        some (corePayload sub)) ∧
    (fs.structure_core = true →
      (saveAllAction fs sub db).db.video_structure_core = db.video_structure_core) ∧
    (fs.structure_detail = false →
      keyedLookup (saveAllAction fs sub db).db.video_structure_detail (step1Id sub db y) =
        some (detailPayload sub)) ∧
    (fs.structure_detail = true →
      (saveAllAction fs sub db).db.video_structure_detail = db.video_structure_detail) ∧
    (fs.observation_notes = false →
      keyedLookup (saveAllAction fs sub db).db.video_observation_notes (step1Id sub db y) =
        some (notePayload sub)) ∧
    (fs.observation_notes = true →
      (saveAllAction fs sub db).db.video_observation_notes = db.video_observation_notes) ∧
    (fs = ⟨false, false, false, true, false⟩ →
      (saveAllAction fs sub db).result = SaveResult.stepFailures ["structure_detail"]) := by
  obtain ⟨tOk, sOk, dOk, nOk⟩ := hval
  have hcond : ¬(jsTrim sub.title = "" ∨ jsTrim sub.hitokoto_summary = "" ∨
      jsTrim sub.product_value_focus_detail = "" ∨ jsTrim sub.observation_text = "") := by
    simp [tOk, sOk, dOk, nOk]
  obtain ⟨v, b1, b2, b3, b4⟩ := fs
  simp only [FailSpec.videos] at hvid
  subst hvid
  cases b1 <;> cases b2 <;> cases b3 <;> cases b4 <;>
    simp [saveAllAction, hext, hcond, runDepStep, depFailList, step1Id,
      keyedLookup_upsertKeyed_self, upsertVideosRow_core_summary,
      upsertVideosRow_structure_core, upsertVideosRow_structure_detail,
      upsertVideosRow_observation_notes]

/-- C2, instantiated: a run in which only the Detail write fails reports
partial success naming exactly that step. -/
theorem claim_C2_witness :
    (saveAllAction ⟨false, false, false, true, false⟩
      ⟨"dQw4w9WgXcQ", "T", "", "", "", "S", "", "", "", "D", "", "", "", "", "N", ""⟩
      emptyDB).result = SaveResult.stepFailures ["structure_detail"] :=
  (claim_C2 ⟨false, false, false, true, false⟩
    ⟨"dQw4w9WgXcQ", "T", "", "", "", "S", "", "", "", "D", "", "", "", "", "N", ""⟩
    emptyDB "dQw4w9WgXcQ" rfl (by decide) rfl).2.2.2.2.2.2.2.2.2.2 rfl

/-- Does the submission satisfy the spec's reading of "at least one Detail
field present and non-empty"? -/
def anyDetailField (sub : Submission) : Prop :=
  jsTrim sub.product_value_focus_detail ≠ "" ∨
    jsTrim sub.visual_main_character_detail ≠ "" ∨
    jsTrim sub.appeal_method ≠ "" ∨
    jsTrim sub.appeal_method_detail ≠ "" ∨
    jsTrim sub.emotional_tone_detail ≠ ""

/-- The required-field condition exactly as the claim words it: title,
summary text, at least one Detail field, and note text all present and
non-empty after trimming. -/
def specRequired (sub : Submission) : Prop :=
  jsTrim sub.title ≠ "" ∧ jsTrim sub.hitokoto_summary ≠ "" ∧
    anyDetailField sub ∧ jsTrim sub.observation_text ≠ ""

instance (sub : Submission) : Decidable (anyDetailField sub) := by
  unfold anyDetailField; infer_instance

instance (sub : Submission) : Decidable (specRequired sub) := by
  unfold specRequired; infer_instance

theorem specRequired_of_fieldsOk {sub : Submission} (h : fieldsOk sub) :
    specRequired sub :=
  ⟨h.1, h.2.1, Or.inl h.2.2.1, h.2.2.2⟩

/-- C3, corrected: a submission missing one of the required fields always
aborts before any storage write, leaving the database untouched, and the
fatal outcome is the validation failure whenever the external id is
extractable (a submission whose id also fails extraction aborts with the
id-extraction failure instead, which is the sole departure from the
original claim); and writes are attempted only when the code's required
fields — hence, in particular, at least one Detail field — are all present
and non-empty. -/
theorem claim_C3 (fs : FailSpec) (sub : Submission) (db : DB) :
    (¬ specRequired sub →
      (saveAllAction fs sub db).db = db ∧
      ((saveAllAction fs sub db).result = SaveResult.fatalBadId ∨
        (saveAllAction fs sub db).result = SaveResult.fatalValidation)) ∧
    (∀ y, extractYouTubeId sub.youtube_url = some y → ¬ specRequired sub →
      (saveAllAction fs sub db).result = SaveResult.fatalValidation) ∧
    ((saveAllAction fs sub db).result ≠ SaveResult.fatalBadId →
      (saveAllAction fs sub db).result ≠ SaveResult.fatalValidation →
      fieldsOk sub ∧ specRequired sub) := by
  have hcond : ∀ y, extractYouTubeId sub.youtube_url = some y → ¬ specRequired sub →
      (saveAllAction fs sub db) = ⟨SaveResult.fatalValidation, db, []⟩ := by
    intro y hext hns
    have hnf : ¬ fieldsOk sub := fun hf => hns (specRequired_of_fieldsOk hf)
    have hc : jsTrim sub.title = "" ∨ jsTrim sub.hitokoto_summary = "" ∨
        jsTrim sub.product_value_focus_detail = "" ∨ jsTrim sub.observation_text = "" := by
      by_contra hcc
      push_neg at hcc
      exact hnf ⟨hcc.1, hcc.2.1, hcc.2.2.1, hcc.2.2.2⟩
    simp [saveAllAction, hext, hc]
  refine ⟨?_, fun y hext hns => by rw [hcond y hext hns], ?_⟩
  · intro hns
    rcases hext : extractYouTubeId sub.youtube_url with _ | y
    · simp [saveAllAction, hext]
    · rw [hcond y hext hns]
      exact ⟨rfl, Or.inr rfl⟩
  · intro hnb hnv
    rcases hext : extractYouTubeId sub.youtube_url with _ | y
    · exact absurd (by simp [saveAllAction, hext]) hnb
    · by_cases hc : jsTrim sub.title = "" ∨ jsTrim sub.hitokoto_summary = "" ∨
          jsTrim sub.product_value_focus_detail = "" ∨ jsTrim sub.observation_text = ""
      · exact absurd (by simp [saveAllAction, hext, hc]) hnv
      · push_neg at hc
        have hf : fieldsOk sub := ⟨hc.1, hc.2.1, hc.2.2.1, hc.2.2.2⟩
        exact ⟨hf, specRequired_of_fieldsOk hf⟩

/-- A submission whose required fields are all empty and whose external id
is unextractable. -/
def subBadBoth : Submission :=
  ⟨"not a url", "", "", "", "", "", "", "", "", "", "", "", "", "", "", ""⟩

/-- C3 as stated is false on the code at one corner: a submission with every
required field missing but also an unextractable external id aborts (with no
write) with the id-extraction fatal, not the validation failure the claim
asserts for every such submission. -/
theorem claim_C3_counterexample :
    ¬ specRequired subBadBoth ∧
    (saveAllAction noFail subBadBoth emptyDB).result = SaveResult.fatalBadId ∧
    (saveAllAction noFail subBadBoth emptyDB).result ≠ SaveResult.fatalValidation ∧
    (saveAllAction noFail subBadBoth emptyDB).db = emptyDB := by decide

/-- C3, instantiated: a submission with a valid id and all required fields
empty performs no write and aborts fatally. -/
theorem claim_C3_witness :
    (saveAllAction noFail
        ⟨"dQw4w9WgXcQ", "", "", "", "", "", "", "", "", "", "", "", "", "", "", ""⟩
        emptyDB).db = emptyDB ∧
    ((saveAllAction noFail
        ⟨"dQw4w9WgXcQ", "", "", "", "", "", "", "", "", "", "", "", "", "", "", ""⟩
        emptyDB).result = SaveResult.fatalBadId ∨
      (saveAllAction noFail
        ⟨"dQw4w9WgXcQ", "", "", "", "", "", "", "", "", "", "", "", "", "", "", ""⟩
        emptyDB).result = SaveResult.fatalValidation) :=
  (claim_C3 noFail
    ⟨"dQw4w9WgXcQ", "", "", "", "", "", "", "", "", "", "", "", "", "", "", ""⟩
    emptyDB).1 (by decide)

/-- C1, corrected: step ⑤ writes the Note through the same
upsert-on-`video_id` helper as the other dependents, so Notes do not
accumulate — starting from an empty store, two fully successful submissions
with the same external identifier leave exactly one Entity row for it, a
Summary reflecting the second submission, and exactly one Note row (whose
content reflects the second submission), rather than the two Note rows the
original claim requires. -/
theorem claim_C1 (sub1 sub2 : Submission) (y : String)
    (h1 : extractYouTubeId sub1.youtube_url = some y)
    (h2 : extractYouTubeId sub2.youtube_url = some y)
    (hv1 : fieldsOk sub1) (hv2 : fieldsOk sub2) :
    (saveAllAction noFail sub1 emptyDB).result = SaveResult.allSaved ∧
    (saveAllAction noFail sub2 (saveAllAction noFail sub1 emptyDB).db).result =
      SaveResult.allSaved ∧
    (saveAllAction noFail sub2 (saveAllAction noFail sub1 emptyDB).db).db.videos.map
      (fun v => v.youtube_id) = [y] ∧
    (saveAllAction noFail sub2
        (saveAllAction noFail sub1 emptyDB).db).db.video_core_summary =
      [(0, summaryPayload sub2)] ∧
    (saveAllAction noFail sub2
        (saveAllAction noFail sub1 emptyDB).db).db.video_observation_notes =
      [(0, notePayload sub2)] := by
  obtain ⟨t1, s1, d1, n1⟩ := hv1
  obtain ⟨t2, s2, d2, n2⟩ := hv2
  have hc1 : ¬(jsTrim sub1.title = "" ∨ jsTrim sub1.hitokoto_summary = "" ∨
      jsTrim sub1.product_value_focus_detail = "" ∨ jsTrim sub1.observation_text = "") := by
    simp [t1, s1, d1, n1]
  have hc2 : ¬(jsTrim sub2.title = "" ∨ jsTrim sub2.hitokoto_summary = "" ∨
      jsTrim sub2.product_value_focus_detail = "" ∨ jsTrim sub2.observation_text = "") := by
    simp [t2, s2, d2, n2]
  have e1 : saveAllAction noFail sub1 emptyDB =
      ⟨SaveResult.allSaved,
        ⟨[⟨0, y, jsTrim sub1.title, optTrim sub1.channel_name,
            optTrim sub1.thumbnail_url, optTrim sub1.published_year⟩],
          [(0, summaryPayload sub1)], [(0, corePayload sub1)],
          [(0, detailPayload sub1)], [(0, notePayload sub1)], 1⟩, []⟩ := by
    simp [saveAllAction, h1, hc1, noFail, runDepStep, upsertVideosRow, emptyDB,
      upsertKeyed, List.find?]
  rw [e1]
  simp [saveAllAction, h2, hc2, noFail, runDepStep, upsertVideosRow,
    upsertKeyed, List.find?_cons, List.any_cons]

/-- A first bulk submission. -/
def subNoteOne : Submission :=
  ⟨"dQw4w9WgXcQ", "Title", "", "", "", "summary one", "", "", "",
    "detail text", "", "", "", "", "note one", ""⟩

/-- A second bulk submission for the same external id with different summary
and note text. -/
def subNoteTwo : Submission :=
  ⟨"dQw4w9WgXcQ", "Title", "", "", "", "summary two", "", "", "",
    "detail text", "", "", "", "", "note two", ""⟩

/-- C1 as stated is false on the code: two fully successful submissions with
the same external identifier leave exactly one Note row, not two — the note
write is an upsert keyed by the entity id, not a plain append. -/
theorem claim_C1_counterexample :
    (saveAllAction noFail subNoteOne emptyDB).result = SaveResult.allSaved ∧
    (saveAllAction noFail subNoteTwo
        (saveAllAction noFail subNoteOne emptyDB).db).result =
      SaveResult.allSaved ∧
    (saveAllAction noFail subNoteTwo
        (saveAllAction noFail subNoteOne emptyDB).db).db.videos.length = 1 ∧
    (saveAllAction noFail subNoteTwo
        (saveAllAction noFail subNoteOne emptyDB).db).db.video_core_summary =
      [(0, ⟨"summary two"⟩)] ∧
    (saveAllAction noFail subNoteTwo
        (saveAllAction noFail subNoteOne emptyDB).db).db.video_observation_notes.length
      = 1 ∧
    (saveAllAction noFail subNoteTwo
        (saveAllAction noFail subNoteOne emptyDB).db).db.video_observation_notes =
      [(0, ⟨"note two", none⟩)] := by decide

/-- C1, instantiated: the corrected statement applied to two concrete
submissions sharing one external id. -/
theorem claim_C1_witness :
    (saveAllAction noFail subNoteTwo
        (saveAllAction noFail subNoteOne emptyDB).db).db.video_observation_notes =
      [(0, notePayload subNoteTwo)] :=
  (claim_C1 subNoteOne subNoteTwo "dQw4w9WgXcQ" rfl rfl (by decide)
    (by decide)).2.2.2.2

end CVL
